import Mathlib

/-!
Verification of the Gokuro progress/stats synchronization core.

Shallow embedding of the sync and stats logic of the Gokuro puzzle app:

* `stats.js` (`updateStatsOnCompletion` and its localStorage store),
* `user.js`  (`bulkSyncAllPuzzles`, `updateLocalPuzzleData`,
  `syncProgressLogic`, `mergeStats`),
* `api/sync.js` (the server-side LOAD-vs-SAVE decision),
* `app.js`   (`persistActivePuzzle`).

Modelling conventions, used throughout:

* JS numbers that hold whole quantities (seconds, streak counters,
  millisecond timestamps) are `Int`.
* Calendar dates in `YYYY-MM-DD` form are modelled as epoch-day numbers
  (`Int`); the rendering of a valid date string is injective, so string
  equality corresponds to day-number equality, and the JS computation
  `Math.floor((todayDate - lastDate) / 86400000)` on two UTC midnights
  is exactly the difference of the two day numbers.
* ISO timestamps (`best_time_date`, `client_updated_at`, `updated_at`)
  are modelled as already-parsed millisecond integers; `Date`
  comparisons in JS compare these numbers.
* `null`/`undefined`-able fields are `Option`; a JS object that may be
  absent altogether is an `Option` of the record type, and a field read
  on a possibly-absent object is `Option.bind`/`Option.map`.
* JSON text (`progress_json`) is modelled by its parsed content: an
  `Option (List (String × String))` holding the `entries` mapping, with
  `none` standing for an unparseable / missing payload.
-/

namespace Gokuro

/-- A user-stats record for one grid size, mirroring the `user_stats`
table and the local object produced by `getEmptyStats` in `stats.js`. -/
structure Stats where
  grid_size : String
  best_time_seconds : Option Int
  best_time_date : Option Int
  current_streak_days : Int
  max_streak_days : Int
  last_completed_date : Option Int
  max_streak_date : Option Int
deriving Repr, DecidableEq

/-- Function `getEmptyStats` from `stats.js`: the fresh record for a grid size. -/
def getEmptyStats (gridSize : String) : Stats :=
  { grid_size := gridSize
  , best_time_seconds := none
  , best_time_date := none
  , current_streak_days := 0
  , max_streak_days := 0
  , last_completed_date := none
  , max_streak_date := none }

/-- The change-flags structure returned by `updateStatsOnCompletion`. -/
structure Changes where
  newPersonalBest : Bool
  streakIncreased : Bool
  newMaxStreak : Bool
deriving Repr, DecidableEq

/-- The personal-best block of `updateStatsOnCompletion`
(`stats.js` lines 117-128): the best time and its date change only when
`isPristine` and (`best_time_seconds === null` or
`elapsedSeconds < stats.best_time_seconds`).  Returns the updated stats
together with the `newPersonalBest` flag. -/
def updatePersonalBest (stats : Stats) (nowTs elapsedSeconds : Int)
    (isPristine : Bool) : Stats × Bool :=
  if isPristine then
    match stats.best_time_seconds with
    | none =>
        ({ stats with best_time_seconds := some elapsedSeconds
                    , best_time_date := some nowTs }, true)
    | some b =>
        if elapsedSeconds < b then
          ({ stats with best_time_seconds := some elapsedSeconds
                      , best_time_date := some nowTs }, true)
        else (stats, false)
  else (stats, false)

/-- The max-streak check that `updateStatsOnCompletion` performs after
raising the streak (`stats.js` lines 140-144 and 161-166): record a new
max streak when the current streak exceeds the stored max.  Returns the
updated stats with the `newMaxStreak` flag. -/
def applyMaxStreakCheck (s : Stats) (today : Int) : Stats × Bool :=
  if s.current_streak_days > s.max_streak_days then
    ({ s with max_streak_days := s.current_streak_days
            , max_streak_date := some today }, true)
  else (s, false)

/-- The streak block of `updateStatsOnCompletion` (`stats.js` lines
130-174).  `today` is the current calendar day (epoch-day number).
Returns the updated stats together with the `streakIncreased` and
`newMaxStreak` flags. -/
def updateStreak (stats : Stats) (today : Int) : Stats × Bool × Bool :=
  match stats.last_completed_date with
  | none =>
      -- first completion ever
      let mc := applyMaxStreakCheck
        { stats with current_streak_days := 1
                   , last_completed_date := some today } today
      (mc.1, true, mc.2)
  | some last =>
      if last = today then
        -- already completed today: streak unchanged
        (stats, false, false)
      else
        let daysDiff := today - last
        if daysDiff = 1 then
          let mc := applyMaxStreakCheck
            { stats with current_streak_days := stats.current_streak_days + 1
                       , last_completed_date := some today } today
          (mc.1, true, mc.2)
        else if daysDiff > 1 then
          ({ stats with current_streak_days := 1
                      , last_completed_date := some today }, false, false)
        else (stats, false, false)

/-- The full per-record update performed by `updateStatsOnCompletion`
once the grid size has been extracted: personal best, then streak. -/
def completionUpdate (stats : Stats) (nowTs elapsedSeconds : Int)
    (isPristine : Bool) (today : Int) : Stats × Changes :=
  let pb := updatePersonalBest stats nowTs elapsedSeconds isPristine
  let st := updateStreak pb.1 today
  (st.1, ⟨pb.2, st.2.1, st.2.2⟩)

/-- The local stats store (`localStorage` object mapping
grid size → stats), as an association list. -/
abbrev StatsStore := List (String × Stats)

/-- Lookup in the stats store (`allStats[gridSize]`). -/
def storeGet : StatsStore → String → Option Stats
  | [], _ => none
  | (k, v) :: rest, key => if k = key then some v else storeGet rest key

/-- Assignment in the stats store (`allStats[gridSize] = stats`). -/
def storeSet : StatsStore → String → Stats → StatsStore
  | [], key, v => [(key, v)]
  | (k, v') :: rest, key, v =>
      if k = key then (key, v) :: rest else (k, v') :: storeSet rest key v

/-- Function `getStatsForGrid` from `stats.js`: returns the stored record, first
creating (and persisting) an empty one when none exists. -/
def getStatsForGrid (store : StatsStore) (gridSize : String) : Stats × StatsStore :=
  match storeGet store gridSize with
  | some s => (s, store)
  | none => (getEmptyStats gridSize, storeSet store gridSize (getEmptyStats gridSize))

/-- The split `puzzleId.split('-')` from `stats.js` line 101: split on single
dashes, keeping empty segments, as the JS `split` does. -/
def puzzleIdParts (s : String) : List String :=
  (s.data.splitOn '-').map (fun cs => String.mk cs)

/-- Function `updateStatsOnCompletion` from `stats.js`.  `today` is the current
calendar day and `nowTs` the current timestamp (for `best_time_date`).
Returns the `{stats, changes}` result (or `none` on a malformed
`puzzleId`, i.e. fewer than four dash-separated segments) together with
the resulting stats store. -/
def updateStatsOnCompletion (puzzleId : String) (elapsedSeconds : Int)
    (isPristine : Bool) (today nowTs : Int) (store : StatsStore) :
    Option (Stats × Changes) × StatsStore :=
  let parts := puzzleIdParts puzzleId
  if parts.length < 4 then (none, store)
  else
    let gridSize := parts.getLastD ""
    let fetched := getStatsForGrid store gridSize
    let updated := completionUpdate fetched.1 nowTs elapsedSeconds isPristine today
    (some updated, storeSet fetched.2 gridSize updated.1)

/-! ### Remote sync protocol: server side (`api/sync.js`) -/

/-- A row of the `user_progress` table, as selected by the sync handler
(`api/sync.js` lines 133-142).  `progress_json` is carried as raw text:
the server echoes it without parsing it. -/
structure ServerRow where
  puzzle_id : String
  grid_size : String
  elapsed_seconds : Int
  was_paused : Bool
  progress_json : String
  status : String
  updated_at : Int
deriving Repr, DecidableEq

/-- The body of a `POST /sync` request, after JSON decoding.
`progress_entries` is the parsed `entries` object of `progress_json`
(`none` when the payload is unparseable, in which case the handler's
`catch` treats it as having no entries). -/
structure SyncPayload where
  puzzle_id : String
  grid_size : String
  elapsed_seconds : Int
  was_paused : Bool
  progress_entries : Option (List (String × String))
  status : String
  client_updated_at : Option Int
  immediate : Bool
deriving Repr, DecidableEq

/-- Flag `clientHasProgress` as computed by the sync handler
(`api/sync.js` lines 146-154): nonzero elapsed time, any entries, or a
complete status; on a parse failure the entries test is skipped. -/
def clientHasProgress (p : SyncPayload) : Bool :=
  match p.progress_entries with
  | some entries =>
      (p.elapsed_seconds > 0) || (!entries.isEmpty) || (p.status = "complete")
  | none =>
      (p.elapsed_seconds > 0) || (p.status = "complete")

/-- The possible non-error responses of the sync handler. -/
inductive SyncResponse where
  /-- Response `action: 'SAVED'` with `log_id: null`: the immediate-and-empty
  acknowledgment, returned without touching the database. -/
  | noOpSaved : SyncResponse
  /-- Response `action: 'LOADED'` with the given row as `latest_progress`. -/
  | loaded (row : ServerRow) : SyncResponse
  /-- Response `action: 'SAVED'` after upserting the client payload into
  `user_progress`. -/
  | saved : SyncResponse
deriving Repr, DecidableEq

/-- The tail of the sync handler after the cross-puzzle restore branch
(`api/sync.js` lines 186-268): the no-op acknowledgment, the
`clientIsNewer` timestamp comparison, and the LOAD/SAVE decision. -/
def syncDecisionCore (p : SyncPayload) (latest : Option ServerRow) : SyncResponse :=
  let chp := clientHasProgress p
  -- `clientUpdatedAt` is used only if the client has progress
  let clientUpdatedAt : Option Int :=
    if chp then p.client_updated_at else none
  if p.immediate && !chp then
    SyncResponse.noOpSaved
  else
    let clientIsNewer : Bool :=
      match latest with
      | none => true
      | some row =>
          if !chp then false
          else
            match clientUpdatedAt with
            | some cts => decide (row.updated_at < cts)
            | none => false
    match latest with
    | some row => if !clientIsNewer then SyncResponse.loaded row else SyncResponse.saved
    | none => SyncResponse.saved

/-- The full decision of the sync handler (`api/sync.js` lines
145-268).  `latest` is the user's `user_progress` row for the requested
puzzle key, `anyLatest` the user's most recent row across all puzzles
(queried only on the non-immediate empty-client path). -/
def syncDecision (p : SyncPayload) (latest anyLatest : Option ServerRow) :
    SyncResponse :=
  if !p.immediate && latest.isNone && !clientHasProgress p then
    match anyLatest with
    | some row => SyncResponse.loaded row
    | none => syncDecisionCore p latest
  else syncDecisionCore p latest

/-! ### Remote sync protocol: client side (`user.js`) -/

/-- The object returned by `getCurrentGameState()` in `app.js`, as
consumed by `syncProgressLogic`. -/
structure GameState where
  puzzle_id : String
  grid_size : String
  elapsed_seconds : Int
  was_paused : Bool
  progress_entries : Option (List (String × String))
  status : String
  client_updated_at : Option Int
deriving Repr, DecidableEq

/-- The local-progress check of `syncProgressLogic`
(`user.js` lines 549-561): entries present, truthy elapsed time, or a
complete status; a parse failure counts as no progress. -/
def gameStateHasProgress (d : GameState) : Bool :=
  match d.progress_entries with
  | some entries =>
      (!entries.isEmpty) || (d.elapsed_seconds ≠ 0) || (d.status = "complete")
  | none => false

/-- What `syncProgressLogic` does before reaching the network. -/
inductive ClientSyncAction where
  /-- An early `return`: no request is sent at all. -/
  | noRequest : ClientSyncAction
  /-- A `POST /sync` request with the given payload. -/
  | request (p : SyncPayload) : ClientSyncAction
deriving Repr, DecidableEq

/-- The payload `syncProgressLogic` sends: the game state plus the
`immediate` flag (`user.js` lines 577-582). -/
def payloadOfGameState (d : GameState) (isImmediate : Bool) : SyncPayload :=
  { puzzle_id := d.puzzle_id
  , grid_size := d.grid_size
  , elapsed_seconds := d.elapsed_seconds
  , was_paused := d.was_paused
  , progress_entries := d.progress_entries
  , status := d.status
  , client_updated_at := d.client_updated_at
  , immediate := isImmediate }

/-- The request-or-skip decision of `syncProgressLogic`
(`user.js` lines 510-582): guards for a running bulk sync, for the
initial bulk sync not having completed, for a missing/invalid game
state, for a missing puzzle key, and for an immediate call with no
progress. -/
def syncProgressAction (isImmediate bulkSyncing hasLoadedInitial : Bool)
    (data : Option GameState) : ClientSyncAction :=
  if bulkSyncing then ClientSyncAction.noRequest
  else if !hasLoadedInitial then ClientSyncAction.noRequest
  else
    match data with
    | none => ClientSyncAction.noRequest
    | some d =>
        if d.puzzle_id = "" || d.puzzle_id = "unknown" then
          ClientSyncAction.noRequest
        else if isImmediate && !gameStateHasProgress d then
          ClientSyncAction.noRequest
        else ClientSyncAction.request (payloadOfGameState d isImmediate)

/-- How `syncProgressLogic` dispatches a `LOADED` response
(`user.js` lines 594-617). -/
inductive LoadedOutcome where
  /-- Call `applyLoadedGameState(result.latest_progress)`: the payload is
  pushed into the live game (and persisted by `app.js`). -/
  | applyToGame : LoadedOutcome
  /-- The payload is dropped: only a console log and a status line; no
  store write, no UI change. -/
  | ignore : LoadedOutcome
deriving Repr, DecidableEq

/-- The `shouldApplyLoad` dispatch of `syncProgressLogic`
(`user.js` lines 603-617): apply when this is the initial load after
login or when the loaded puzzle is the one now displayed; otherwise
ignore. -/
def handleLoadedResponse (isInitialLoad : Bool)
    (loadedPuzzleId nowPuzzleId : String) : LoadedOutcome :=
  if isInitialLoad || (loadedPuzzleId = nowPuzzleId) then
    LoadedOutcome.applyToGame
  else LoadedOutcome.ignore

/-- Whether a `LoadedOutcome` writes the loaded payload into the local
progress store.  The `ignore` branch of `syncProgressLogic` performs no
`savePuzzleProgressRecord`/`applyLoadedGameState` call at all. -/
def loadedWritesLocalStore : LoadedOutcome → Bool
  | LoadedOutcome.applyToGame => true
  | LoadedOutcome.ignore => false

/-! ### Bulk sync (`user.js`: `bulkSyncAllPuzzles`,
`updateLocalPuzzleData`) -/

/-- A record of the local IndexedDB progress store. -/
structure LocalRecord where
  status : String
  entries : List (String × String)
  elapsedSeconds : Int
  updatedAt : Int
deriving Repr, DecidableEq

/-- A row of the `/sync-bulk` response for one puzzle, as consumed by
the bulk loop.  `status` and `elapsed_seconds` are optional to mirror
the `|| 'not-started'` / `|| 0` defaults applied on the client;
`progress_entries` is the parsed `entries` of `progress_json`. -/
structure RemoteRow where
  elapsed_seconds : Option Int
  was_paused : Bool
  progress_entries : Option (List (String × String))
  status : Option String
  updated_at : Int
deriving Repr, DecidableEq

/-- Flag `localHasProgress` as computed in the bulk loop
(`user.js` lines 277-282). -/
def localHasProgress (localData : Option LocalRecord) : Bool :=
  match localData with
  | none => false
  | some d =>
      (!d.entries.isEmpty) || (d.elapsedSeconds > 0) || (d.status = "complete")

/-- The record `updateLocalPuzzleData` writes into IndexedDB for a
remote row (`user.js` lines 423-447). -/
def recordOfRemote (r : RemoteRow) : LocalRecord :=
  { status := r.status.getD "not-started"
  , entries := r.progress_entries.getD []
  , elapsedSeconds := r.elapsed_seconds.getD 0
  , updatedAt := r.updated_at }

/-- The per-key action of the bulk loop. -/
inductive BulkAction where
  /-- Call `uploadPuzzleToServer`: push the local record. -/
  | upload : BulkAction
  /-- Call `updateLocalPuzzleData`: the given record is written into the
  local store. -/
  | download (saved : LocalRecord) : BulkAction
  /-- Neither branch taken. -/
  | noAction : BulkAction
deriving Repr, DecidableEq

/-- The per-key decision of `bulkSyncAllPuzzles`
(`user.js` lines 303-320): upload when only local has progress;
download whenever the server has a row, unconditionally. -/
def bulkSyncStep (localData : Option LocalRecord) (remoteData : Option RemoteRow) :
    BulkAction :=
  if remoteData.isNone && localHasProgress localData then BulkAction.upload
  else
    match remoteData with
    | some r => BulkAction.download (recordOfRemote r)
    | none => BulkAction.noAction

/-! ### Local persistence (`app.js`: `persistActivePuzzle`) -/

/-- The state `persistActivePuzzle` reads: the optional status override
passed by the caller, the timer flags, and the collected grid state. -/
structure PersistInputs where
  statusOverride : Option String
  puzzleCompleted : Bool
  /-- whether `timerIntervalId` is set (the timer is ticking) -/
  timerRunning : Bool
  timerPaused : Bool
  entries : List (String × String)
  elapsedSeconds : Int
deriving Repr, DecidableEq

/-- The status resolution of `persistActivePuzzle`
(`app.js` lines 959-976): a `paused` override demotes to `not-started`
when there is no progress; with no override the status is derived from
the completion flag, the timer state and the presence of progress. -/
def resolvePersistStatus (i : PersistInputs) : String :=
  let hasEntries := !i.entries.isEmpty
  let hasProgress := hasEntries || i.elapsedSeconds > 0
  let status0 : Option String :=
    match i.statusOverride with
    | some s => if s = "paused" && !hasProgress then some "not-started" else some s
    | none => none
  match status0 with
  | some s => s
  | none =>
      if i.puzzleCompleted then "complete"
      else if !i.timerRunning && (i.timerPaused || hasProgress) then
        if hasProgress then "paused" else "not-started"
      else if hasProgress then "started" else "not-started"

/-- The two possible effects of `persistActivePuzzle` on the local
progress store. -/
inductive PersistAction where
  /-- Call `deletePuzzleProgressRecord(storageKey)`. -/
  | deleteRecord : PersistAction
  /-- Call `savePuzzleProgressRecord(record)`. -/
  | saveRecord (r : LocalRecord) : PersistAction
deriving Repr, DecidableEq

/-- Function `persistActivePuzzle` (`app.js` lines 947-996): a resolved
`not-started` status deletes the record; any other status writes the
collected record, stamped with the current time. -/
def persistActivePuzzle (i : PersistInputs) (now : Int) : PersistAction :=
  let status := resolvePersistStatus i
  if status = "not-started" then PersistAction.deleteRecord
  else
    PersistAction.saveRecord
      { status := status
      , entries := i.entries
      , elapsedSeconds := i.elapsedSeconds
      , updatedAt := now }

/-! ### Stats merge (`user.js`: `mergeStats`) -/

/-- The personal-best block of `mergeStats` (`user.js` lines 735-751):
the faster non-null time wins, carrying its date. -/
def jsMergeBest (lBest rBest lDate rDate : Option Int) : Option Int × Option Int :=
  match lBest, rBest with
  | some lb, some rb =>
      if lb < rb then (some lb, lDate) else (some rb, rDate)
  | some lb, none => (some lb, lDate)
  | none, some rb => (some rb, rDate)
  | none, none => (none, none)

/-- The streak block of `mergeStats` (`user.js` lines 753-771): the
side with the more recent `last_completed_date` wins (ties favor
local). -/
def jsMergeStreak (lLast rLast : Option Int) (lStreak rStreak : Int) :
    Int × Option Int :=
  match lLast, rLast with
  | some ll, some rl =>
      if ll ≥ rl then (lStreak, some ll) else (rStreak, some rl)
  | some ll, none => (lStreak, some ll)
  | none, some rl => (rStreak, some rl)
  | none, none => (0, none)

/-- The max-streak block of `mergeStats` (`user.js` lines 773-782): the
numerically larger value wins, with absent sides defaulting to 0 via
`|| 0`. -/
def jsMergeMax (lMax rMax : Int) (lDate rDate : Option Int) : Int × Option Int :=
  if lMax > rMax then (lMax, lDate) else (rMax, rDate)

/-- Function `mergeStats` from `user.js` (lines 718-786).  Either side may be
absent (`null`/`undefined` input, normalised to `{}` by the source);
field reads on an absent side yield `undefined`, here `Option.bind` /
`Option.map`.  In the max-streak block the source assigns the raw
`localData.max_streak_days` when it wins; the `|| 0`-defaulted value is
used here, which agrees whenever the guard can fire (a winning side is
truthy, hence present). -/
def mergeStats (localS remoteS : Option Stats) : Stats :=
  let best := jsMergeBest (localS.bind (·.best_time_seconds))
      (remoteS.bind (·.best_time_seconds))
      (localS.bind (·.best_time_date)) (remoteS.bind (·.best_time_date))
  let streak := jsMergeStreak (localS.bind (·.last_completed_date))
      (remoteS.bind (·.last_completed_date))
      ((localS.map (·.current_streak_days)).getD 0)
      ((remoteS.map (·.current_streak_days)).getD 0)
  let maxS := jsMergeMax ((localS.map (·.max_streak_days)).getD 0)
      ((remoteS.map (·.max_streak_days)).getD 0)
      (localS.bind (·.max_streak_date)) (remoteS.bind (·.max_streak_date))
  { grid_size := (localS.map (·.grid_size)).getD
      ((remoteS.map (·.grid_size)).getD "unknown")
  , best_time_seconds := best.1
  , best_time_date := best.2
  , current_streak_days := streak.1
  , max_streak_days := maxS.1
  , last_completed_date := streak.2
  , max_streak_date := maxS.2 }

/-! ### Theorems -/

/-- C1: During a bulk sync pass, for every puzzle key for which the remote
store holds a row, the per-key action of `bulkSyncAllPuzzles` is LOAD: the
remote payload (as converted by `updateLocalPuzzleData`) is written into the
local store, for every possible local record — in particular regardless of
whether the local `updatedAt` is newer than the remote `updated_at`. -/
theorem bulk_sync_remote_row_is_always_load
    (localData : Option LocalRecord) (r : RemoteRow) :
    bulkSyncStep localData (some r) = BulkAction.download (recordOfRemote r) := rfl

/-- C10: `updateStatsOnCompletion` on a puzzle id with fewer than four
dash-separated segments returns `none` and leaves the stats store untouched:
no personal-best, streak, or persistence effect occurs. -/
theorem malformed_puzzle_id_no_update (puzzleId : String) (e : Int) (p : Bool)
    (today nowTs : Int) (store : StatsStore)
    (h : (puzzleIdParts puzzleId).length < 4) :
    updateStatsOnCompletion puzzleId e p today nowTs store = (none, store) := by
  unfold updateStatsOnCompletion
  simp [h]

/-- Witness for C10 at the malformed id `"2025-11"`. -/
theorem malformed_puzzle_id_no_update_witness :
    (puzzleIdParts "2025-11").length < 4 ∧
      updateStatsOnCompletion "2025-11" 245 true 20412 999 [] = (none, []) :=
  ⟨by decide, malformed_puzzle_id_no_update "2025-11" 245 true 20412 999 [] (by decide)⟩

/-- C9 amended: the never-persist-empty-not-started invariant holds for
the game's own persist path, but not store-wide (the bulk download path
writes remote rows verbatim): every `persistActivePuzzle` call whose
resolved status is `not-started` deletes the record instead of writing
it, and no record `persistActivePuzzle` ever writes is the empty
`not-started` record (empty entries, zero elapsed seconds, status
`not-started`) — on this path, absence of a record is the not-started
state. -/
theorem persist_not_started_deletes (i : PersistInputs) (now : Int) :
    (resolvePersistStatus i = "not-started" →
       persistActivePuzzle i now = PersistAction.deleteRecord) ∧
    (∀ r : LocalRecord, persistActivePuzzle i now = PersistAction.saveRecord r →
       r.status ≠ "not-started" ∧
         ¬(r.entries.isEmpty ∧ r.elapsedSeconds = 0 ∧ r.status = "not-started")) := by
  constructor
  · intro h
    unfold persistActivePuzzle
    simp [h]
  · intro r hr
    unfold persistActivePuzzle at hr
    by_cases h : resolvePersistStatus i = "not-started"
    · simp [h] at hr
    · simp only [if_neg h] at hr
      have hstat : r.status = resolvePersistStatus i := by
        cases hr
        rfl
      constructor
      · rw [hstat]; exact h
      · rintro ⟨-, -, hns⟩
        exact h (hstat ▸ hns)

/-- Witness for C9: a `paused` override with an untouched grid resolves to
`not-started` and deletes; a save of a real in-progress record never stores
the empty not-started triple. -/
theorem persist_not_started_deletes_witness :
    (persistActivePuzzle ⟨some "paused", false, false, false, [], 0⟩ 5 =
       PersistAction.deleteRecord) ∧
    ((LocalRecord.mk "paused" [("0-0", "A")] 3 5).status ≠ "not-started" ∧
       ¬((LocalRecord.mk "paused" [("0-0", "A")] 3 5).entries.isEmpty ∧
           (LocalRecord.mk "paused" [("0-0", "A")] 3 5).elapsedSeconds = 0 ∧
           (LocalRecord.mk "paused" [("0-0", "A")] 3 5).status = "not-started")) :=
  ⟨(persist_not_started_deletes ⟨some "paused", false, false, false, [], 0⟩ 5).1
     (by decide),
   (persist_not_started_deletes ⟨none, false, false, false, [("0-0", "A")], 3⟩ 5).2
     (LocalRecord.mk "paused" [("0-0", "A")] 3 5) rfl⟩

/-- C9 counterexample: the claimed invariant is not store-wide, because
`persistActivePuzzle` is not the only writer of the local progress store.
`updateLocalPuzzleData` persists downloaded rows verbatim, with no
not-started guard: for a server row with empty entries, zero elapsed
seconds and a `not-started` status — a row the server can hold, since a
non-immediate sync of an empty client state upserts exactly such a row
(second conjunct) — the unconditional bulk download writes the record
with empty entries, `elapsedSeconds = 0` and status `not-started` into
the local store instead of deleting it. -/
theorem bulk_download_persists_empty_not_started_cex :
    (bulkSyncStep none
         (some ⟨some 0, false, some [], some "not-started", 1700⟩) =
       BulkAction.download (LocalRecord.mk "not-started" [] 0 1700) ∧
     (LocalRecord.mk "not-started" [] 0 1700).entries.isEmpty = true ∧
     (LocalRecord.mk "not-started" [] 0 1700).elapsedSeconds = 0 ∧
     (LocalRecord.mk "not-started" [] 0 1700).status = "not-started") ∧
    syncDecision
        ⟨"2025-11-22-7x7", "7x7", 0, false, some [], "not-started", some 1700,
          false⟩
        none none =
      SyncResponse.saved := by
  exact ⟨⟨rfl, rfl, rfl, rfl⟩, by decide⟩

/-- C8 counterexample: an incremental `LOADED` response for a puzzle other
than the one displayed, outside the initial load, is dropped entirely by
`syncProgressLogic`: it is NOT applied to local storage (the claim asserts
the payload is written to local storage in this situation). -/
theorem loaded_other_puzzle_not_stored_cex :
    handleLoadedResponse false "2025-11-19-5x5" "2025-11-20-5x5" =
        LoadedOutcome.ignore ∧
      loadedWritesLocalStore
          (handleLoadedResponse false "2025-11-19-5x5" "2025-11-20-5x5") = false := by
  constructor <;> decide

/-- C8 amended: a `LOADED` response is applied (pushed into the live game by
`applyLoadedGameState`) exactly when this is the initial-load sync or the
loaded puzzle is the one now displayed; otherwise it is ignored entirely —
written neither to local storage nor to the live UI. -/
theorem loaded_dispatch_amended (isInitialLoad : Bool)
    (loadedPuzzleId nowPuzzleId : String) :
    (handleLoadedResponse isInitialLoad loadedPuzzleId nowPuzzleId =
        LoadedOutcome.applyToGame ↔
          (isInitialLoad = true ∨ loadedPuzzleId = nowPuzzleId)) ∧
    (isInitialLoad = false → loadedPuzzleId ≠ nowPuzzleId →
       handleLoadedResponse isInitialLoad loadedPuzzleId nowPuzzleId =
           LoadedOutcome.ignore ∧
         loadedWritesLocalStore
             (handleLoadedResponse isInitialLoad loadedPuzzleId nowPuzzleId) =
           false) := by
  constructor
  · unfold handleLoadedResponse
    by_cases h1 : isInitialLoad = true
    · simp [h1]
    · by_cases h2 : loadedPuzzleId = nowPuzzleId <;>
        simp [h1, h2, Bool.not_eq_true _ ▸ h1]
  · intro h1 h2
    unfold handleLoadedResponse
    simp [h1, h2, loadedWritesLocalStore]

/-- Witness for C8's amended theorem at a concrete mismatched pair. -/
theorem loaded_dispatch_amended_witness :
    handleLoadedResponse false "2025-11-19-5x5" "2025-11-20-5x5" =
        LoadedOutcome.ignore ∧
      loadedWritesLocalStore
          (handleLoadedResponse false "2025-11-19-5x5" "2025-11-20-5x5") =
        false :=
  (loaded_dispatch_amended false "2025-11-19-5x5" "2025-11-20-5x5").2 rfl
    (by decide)

/-- C2: for every per-record sync request where the client has progress
and both a client timestamp and a matching server row exist, the handler
decides SAVE (upsert) exactly when `client_updated_at` is strictly greater
than the row's `updated_at`, and otherwise responds LOADED with the server
row — on the immediate and the debounced path alike. -/
theorem incremental_save_iff_client_strictly_newer (p : SyncPayload)
    (row : ServerRow) (anyLatest : Option ServerRow) (cts : Int)
    (hprog : clientHasProgress p = true)
    (hts : p.client_updated_at = some cts) :
    (syncDecision p (some row) anyLatest = SyncResponse.saved ↔
       row.updated_at < cts) ∧
    (cts ≤ row.updated_at →
       syncDecision p (some row) anyLatest = SyncResponse.loaded row) := by
  have hcore : syncDecision p (some row) anyLatest =
      (if row.updated_at < cts then SyncResponse.saved
       else SyncResponse.loaded row) := by
    simp only [syncDecision, syncDecisionCore, hprog, hts]
    simp
    by_cases hlt : row.updated_at < cts
    · rw [if_pos hlt, if_neg (by omega)]
    · rw [if_neg hlt, if_pos (by omega)]
  by_cases hlt : row.updated_at < cts
  · rw [hcore, if_pos hlt]
    refine ⟨⟨fun _ => hlt, fun _ => rfl⟩, fun hge => absurd hlt (by omega)⟩
  · rw [hcore, if_neg hlt]
    refine ⟨⟨fun h => (by cases h), fun h => absurd h hlt⟩, fun _ => rfl⟩

/-- Witness for C2 at a concrete payload and row (client timestamp 2000,
server timestamp 1500). -/
theorem incremental_save_iff_client_strictly_newer_witness :
    (syncDecision
         ⟨"2025-11-20-5x5", "5x5", 30, false, some [("0-0", "A")], "started",
           some 2000, false⟩
         (some ⟨"2025-11-20-5x5", "5x5", 10, false, "raw", "started", 1500⟩)
         none =
       SyncResponse.saved ↔
       (ServerRow.mk "2025-11-20-5x5" "5x5" 10 false "raw" "started" 1500).updated_at <
         2000) ∧
    ((2000 : Int) ≤
         (ServerRow.mk "2025-11-20-5x5" "5x5" 10 false "raw" "started" 1500).updated_at →
       syncDecision
           ⟨"2025-11-20-5x5", "5x5", 30, false, some [("0-0", "A")], "started",
             some 2000, false⟩
           (some ⟨"2025-11-20-5x5", "5x5", 10, false, "raw", "started", 1500⟩)
           none =
         SyncResponse.loaded
           ⟨"2025-11-20-5x5", "5x5", 10, false, "raw", "started", 1500⟩) :=
  incremental_save_iff_client_strictly_newer
    ⟨"2025-11-20-5x5", "5x5", 30, false, some [("0-0", "A")], "started",
      some 2000, false⟩
    ⟨"2025-11-20-5x5", "5x5", 10, false, "raw", "started", 1500⟩ none 2000
    (by decide) rfl

/-- C3 counterexample: a non-immediate (debounced) sync with no local
progress and no remote row for the key is not a NONE: with no other remote
rows the handler upserts the empty client payload (creating a remote
record), and with another row present it responds LOADED with that other
puzzle's payload. -/
theorem empty_debounced_sync_not_none_cex :
    syncDecision
        ⟨"2025-11-20-5x5", "5x5", 0, false, some [], "not-started", some 1000,
          false⟩
        none none =
      SyncResponse.saved ∧
    syncDecision
        ⟨"2025-11-20-5x5", "5x5", 0, false, some [], "not-started", some 1000,
          false⟩
        none
        (some ⟨"2025-11-19-5x5", "5x5", 30, false, "raw", "started", 900⟩) =
      SyncResponse.loaded
        ⟨"2025-11-19-5x5", "5x5", 30, false, "raw", "started", 900⟩ := by
  constructor <;> decide

/-- C3 amended: with no remote row for the key and no local progress, the
action is NONE only on the immediate path (`syncProgressLogic` sends no
request at all).  On the non-immediate path the server instead responds
LOADED with the user's most recent row for any other puzzle when one
exists, and otherwise upserts the empty client payload, creating a remote
record. -/
theorem empty_sync_paths_amended (bulk hasLoaded : Bool) (d : GameState)
    (p : SyncPayload) (row : ServerRow)
    (hd : gameStateHasProgress d = false)
    (himm : p.immediate = false) (hprog : clientHasProgress p = false) :
    syncProgressAction true bulk hasLoaded (some d) = ClientSyncAction.noRequest ∧
    syncDecision p none (some row) = SyncResponse.loaded row ∧
    syncDecision p none none = SyncResponse.saved := by
  refine ⟨?_, ?_, ?_⟩
  · unfold syncProgressAction
    cases bulk <;> cases hasLoaded <;> simp [hd]
  · simp [syncDecision, himm, hprog]
  · simp [syncDecision, syncDecisionCore, himm, hprog]

/-- Witness for C3's amended theorem at a concrete empty state. -/
theorem empty_sync_paths_amended_witness :
    syncProgressAction true false true
        (some ⟨"2025-11-20-5x5", "5x5", 0, false, some [], "not-started",
          some 1000⟩) =
      ClientSyncAction.noRequest ∧
    syncDecision
        ⟨"2025-11-20-5x5", "5x5", 0, false, some [], "not-started", some 1000,
          false⟩
        none
        (some ⟨"2025-11-19-5x5", "5x5", 30, false, "raw", "started", 900⟩) =
      SyncResponse.loaded
        ⟨"2025-11-19-5x5", "5x5", 30, false, "raw", "started", 900⟩ ∧
    syncDecision
        ⟨"2025-11-20-5x5", "5x5", 0, false, some [], "not-started", some 1000,
          false⟩
        none none =
      SyncResponse.saved :=
  empty_sync_paths_amended false true
    ⟨"2025-11-20-5x5", "5x5", 0, false, some [], "not-started", some 1000⟩
    ⟨"2025-11-20-5x5", "5x5", 0, false, some [], "not-started", some 1000,
      false⟩
    ⟨"2025-11-19-5x5", "5x5", 30, false, "raw", "started", 900⟩
    (by decide) rfl (by decide)

/-- C4: an immediate sync call on a puzzle whose local state has no
progress (empty entries, zero elapsed seconds, status not complete) is a
pure no-op: `syncProgressLogic` returns before any network call, and even
a direct request of that shape is answered by the handler with the no-op
acknowledgment — no row is created or updated and no payload is loaded. -/
theorem immediate_empty_sync_is_noop (bulk hasLoaded : Bool) (d : GameState)
    (p : SyncPayload) (latest anyLatest : Option ServerRow)
    (hd : gameStateHasProgress d = false)
    (himm : p.immediate = true) (hprog : clientHasProgress p = false) :
    syncProgressAction true bulk hasLoaded (some d) = ClientSyncAction.noRequest ∧
    syncDecision p latest anyLatest = SyncResponse.noOpSaved := by
  constructor
  · unfold syncProgressAction
    cases bulk <;> cases hasLoaded <;> simp [hd]
  · simp [syncDecision, syncDecisionCore, himm, hprog]

/-- Witness for C4 at a concrete empty immediate call. -/
theorem immediate_empty_sync_is_noop_witness :
    syncProgressAction true false true
        (some ⟨"2025-11-21-5x5", "5x5", 0, false, some [], "not-started",
          some 1000⟩) =
      ClientSyncAction.noRequest ∧
    syncDecision
        ⟨"2025-11-21-5x5", "5x5", 0, false, some [], "not-started", some 1000,
          true⟩
        (some ⟨"2025-11-21-5x5", "5x5", 10, false, "raw", "started", 1500⟩)
        none =
      SyncResponse.noOpSaved :=
  immediate_empty_sync_is_noop false true
    ⟨"2025-11-21-5x5", "5x5", 0, false, some [], "not-started", some 1000⟩
    ⟨"2025-11-21-5x5", "5x5", 0, false, some [], "not-started", some 1000,
      true⟩
    (some ⟨"2025-11-21-5x5", "5x5", 10, false, "raw", "started", 1500⟩) none
    (by decide) rfl (by decide)

/-- The personal-best block never touches the streak fields. -/
theorem updatePersonalBest_streak_fields (s : Stats) (n e : Int) (p : Bool) :
    (updatePersonalBest s n e p).1.current_streak_days = s.current_streak_days ∧
    (updatePersonalBest s n e p).1.max_streak_days = s.max_streak_days ∧
    (updatePersonalBest s n e p).1.last_completed_date = s.last_completed_date := by
  unfold updatePersonalBest
  split
  · split
    · simp
    · split <;> simp
  · simp

/-- The max-streak check never changes the current streak. -/
theorem applyMaxStreakCheck_fst_current (s : Stats) (t : Int) :
    (applyMaxStreakCheck s t).1.current_streak_days = s.current_streak_days := by
  unfold applyMaxStreakCheck
  split <;> simp

/-- C5: the streak cases of `updateStatsOnCompletion`: a first completion
sets the streak to 1; a second completion on the same calendar day leaves
it unchanged; a gap of exactly one day increments it; a gap of more than
one day resets it to 1 — for every stats record and completion event. -/
theorem completion_streak_cases (stats : Stats) (nowTs e today : Int) (p : Bool) :
    (stats.last_completed_date = none →
       (completionUpdate stats nowTs e p today).1.current_streak_days = 1) ∧
    (stats.last_completed_date = some today →
       (completionUpdate stats nowTs e p today).1.current_streak_days =
         stats.current_streak_days) ∧
    (∀ last, stats.last_completed_date = some last → today - last = 1 →
       (completionUpdate stats nowTs e p today).1.current_streak_days =
         stats.current_streak_days + 1) ∧
    (∀ last, stats.last_completed_date = some last → today - last > 1 →
       (completionUpdate stats nowTs e p today).1.current_streak_days = 1) := by
  obtain ⟨h1, h2, h3⟩ := updatePersonalBest_streak_fields stats nowTs e p
  simp only [completionUpdate]
  refine ⟨?_, ?_, ?_, ?_⟩
  · intro h
    simp [updateStreak, h3, h, applyMaxStreakCheck_fst_current]
  · intro h
    simp [updateStreak, h3, h, h1]
  · intro last hlast hdiff
    have hne : ¬(last = today) := by omega
    simp [updateStreak, h3, hlast, hne, hdiff, applyMaxStreakCheck_fst_current, h1]
  · intro last hlast hdiff
    have hne : ¬(last = today) := by omega
    have hd1 : ¬(today - last = 1) := by omega
    simp [updateStreak, h3, hlast, hne, hd1, hdiff]

/-- Witness for C5: the four streak cases at concrete records (last
completion absent, today, yesterday, five days ago). -/
theorem completion_streak_cases_witness :
    (completionUpdate ⟨"5x5", none, none, 0, 0, none, none⟩ 999 245 true
          20412).1.current_streak_days = 1 ∧
    (completionUpdate ⟨"5x5", none, none, 3, 10, some 20412, none⟩ 999 245 true
          20412).1.current_streak_days = 3 ∧
    (completionUpdate ⟨"5x5", none, none, 3, 10, some 20411, none⟩ 999 245 true
          20412).1.current_streak_days = 3 + 1 ∧
    (completionUpdate ⟨"5x5", none, none, 3, 10, some 20407, none⟩ 999 245 true
          20412).1.current_streak_days = 1 :=
  ⟨(completion_streak_cases ⟨"5x5", none, none, 0, 0, none, none⟩ 999 245 20412
        true).1 rfl,
   (completion_streak_cases ⟨"5x5", none, none, 3, 10, some 20412, none⟩ 999 245
        20412 true).2.1 rfl,
   (completion_streak_cases ⟨"5x5", none, none, 3, 10, some 20411, none⟩ 999 245
        20412 true).2.2.1 20411 rfl (by decide),
   (completion_streak_cases ⟨"5x5", none, none, 3, 10, some 20407, none⟩ 999 245
        20412 true).2.2.2 20407 rfl (by decide)⟩

/-! ### C6: personal best over a sequence of completions -/

/-- One completion event: elapsed time, pristine flag, and the calendar
day / timestamp at which it is processed. -/
structure CompletionEvent where
  elapsed : Int
  isPristine : Bool
  today : Int
  nowTs : Int
deriving Repr, DecidableEq

/-- Folding `updateStatsOnCompletion`'s per-record update over a sequence
of completion events for one grid size. -/
def runCompletions (init : Stats) (evs : List CompletionEvent) : Stats :=
  evs.foldl
    (fun s ev => (completionUpdate s ev.nowTs ev.elapsed ev.isPristine ev.today).1)
    init

/-- The elapsed times of the pristine completions of a sequence. -/
def pristineTimes (evs : List CompletionEvent) : List Int :=
  (evs.filter (·.isPristine)).map (·.elapsed)

/-- The minimum of a list of times (`none` for the empty list). -/
def listMinOpt : List Int → Option Int
  | [] => none
  | x :: xs =>
      match listMinOpt xs with
      | none => some x
      | some m => some (min x m)

/-- Merge of two optional minima. -/
def combineMin : Option Int → Option Int → Option Int
  | none, c => c
  | some x, none => some x
  | some x, some y => some (min x y)

theorem combineMin_assoc (a b c : Option Int) :
    combineMin (combineMin a b) c = combineMin a (combineMin b c) := by
  cases a <;> cases b <;> cases c <;> simp [combineMin, min_assoc]

theorem combineMin_comm (a b : Option Int) : combineMin a b = combineMin b a := by
  cases a <;> cases b <;> simp [combineMin, min_comm]

/-- The effect of one completion event on the stored best time. -/
def bestStep (b : Option Int) (ev : CompletionEvent) : Option Int :=
  if ev.isPristine then
    match b with
    | none => some ev.elapsed
    | some m => if ev.elapsed < m then some ev.elapsed else some m
  else b

theorem bestStep_eq_combineMin (b : Option Int) (ev : CompletionEvent) :
    bestStep b ev = if ev.isPristine then combineMin b (some ev.elapsed) else b := by
  unfold bestStep
  by_cases hp : ev.isPristine = true
  · rw [if_pos hp, if_pos hp]
    cases b with
    | none => rfl
    | some m =>
        simp only [combineMin]
        rcases lt_or_ge ev.elapsed m with h | h
        · rw [if_pos h, min_eq_right (le_of_lt h)]
        · rw [if_neg (not_lt.mpr h), min_eq_left h]
  · rw [if_neg hp, if_neg hp]

/-- The max-streak check never touches the best-time fields. -/
theorem applyMaxStreakCheck_fst_best (s : Stats) (t : Int) :
    (applyMaxStreakCheck s t).1.best_time_seconds = s.best_time_seconds := by
  unfold applyMaxStreakCheck
  split <;> simp

/-- The streak block never touches the best-time fields. -/
theorem updateStreak_fst_best (s : Stats) (t : Int) :
    (updateStreak s t).1.best_time_seconds = s.best_time_seconds := by
  unfold updateStreak
  split
  · simp [applyMaxStreakCheck_fst_best]
  · split
    · rfl
    · dsimp only
      split
      · simp [applyMaxStreakCheck_fst_best]
      · split
        · simp
        · rfl

/-- One completion event transforms the stored best exactly by
`bestStep`. -/
theorem completionUpdate_fst_best (s : Stats) (ev : CompletionEvent) :
    (completionUpdate s ev.nowTs ev.elapsed ev.isPristine ev.today).1.best_time_seconds =
      bestStep s.best_time_seconds ev := by
  simp only [completionUpdate]
  rw [updateStreak_fst_best]
  unfold updatePersonalBest bestStep
  by_cases hp : ev.isPristine = true
  · rw [if_pos hp, if_pos hp]
    cases hb : s.best_time_seconds with
    | none => rfl
    | some m =>
        dsimp only
        split <;> simp [hb]
  · rw [if_neg hp, if_neg hp]

theorem runCompletions_best (evs : List CompletionEvent) :
    ∀ s : Stats, (runCompletions s evs).best_time_seconds =
      evs.foldl bestStep s.best_time_seconds := by
  induction evs with
  | nil => intro s; rfl
  | cons ev rest ih =>
      intro s
      simp only [runCompletions, List.foldl_cons] at *
      rw [ih, completionUpdate_fst_best]

theorem foldl_bestStep_eq (evs : List CompletionEvent) :
    ∀ b : Option Int,
      evs.foldl bestStep b = combineMin b (listMinOpt (pristineTimes evs)) := by
  induction evs with
  | nil =>
      intro b
      cases b <;> rfl
  | cons ev rest ih =>
      intro b
      rw [List.foldl_cons, ih, bestStep_eq_combineMin]
      by_cases hp : ev.isPristine
      · have hcons : pristineTimes (ev :: rest) = ev.elapsed :: pristineTimes rest := by
          simp [pristineTimes, hp]
        have hmin : listMinOpt (ev.elapsed :: pristineTimes rest) =
            combineMin (some ev.elapsed) (listMinOpt (pristineTimes rest)) := by
          cases h : listMinOpt (pristineTimes rest) <;> simp [listMinOpt, h, combineMin]
        rw [if_pos hp, hcons, hmin, combineMin_assoc]
      · have hcons : pristineTimes (ev :: rest) = pristineTimes rest := by
          simp [pristineTimes, hp]
        rw [if_neg hp, hcons]

/-- C6: a non-pristine completion never alters the stored best time; a
pristine one replaces it exactly when it is strictly smaller (or no best
exists); consequently, starting from empty stats, after any sequence of
completions `best_time_seconds` is exactly the minimum of the pristine
elapsed times. -/
theorem personal_best_min_of_pristine (g : String) :
    (∀ (s : Stats) (n e t : Int),
       (completionUpdate s n e false t).1.best_time_seconds = s.best_time_seconds) ∧
    (∀ (s : Stats) (n e t : Int),
       (completionUpdate s n e true t).1.best_time_seconds =
         match s.best_time_seconds with
         | none => some e
         | some b => if e < b then some e else some b) ∧
    (∀ evs : List CompletionEvent,
       (runCompletions (getEmptyStats g) evs).best_time_seconds =
         listMinOpt (pristineTimes evs)) := by
  refine ⟨?_, ?_, ?_⟩
  · intro s n e t
    exact completionUpdate_fst_best s ⟨e, false, t, n⟩
  · intro s n e t
    exact completionUpdate_fst_best s ⟨e, true, t, n⟩
  · intro evs
    rw [runCompletions_best, foldl_bestStep_eq]
    rfl

/-! ### C7: merge commutativity -/

theorem jsMergeBest_fst (x y dx dy : Option Int) :
    (jsMergeBest x y dx dy).1 = combineMin x y := by
  cases x with
  | none => cases y <;> rfl
  | some lb =>
      cases y with
      | none => rfl
      | some rb =>
          rcases lt_or_ge lb rb with h | h
          · simp only [jsMergeBest, if_pos h, combineMin]
            rw [min_eq_left (le_of_lt h)]
          · simp only [jsMergeBest, if_neg (not_lt.mpr h), combineMin]
            rw [min_eq_right h]

theorem jsMergeMax_fst (l r : Int) (dx dy : Option Int) :
    (jsMergeMax l r dx dy).1 = max l r := by
  unfold jsMergeMax
  rcases lt_or_ge r l with h | h
  · rw [if_pos h, max_eq_left (le_of_lt h)]
  · rw [if_neg (not_lt.mpr h), max_eq_right h]

/-- C7: for every pair of possibly-absent stats records, `mergeStats`
yields the same `best_time_seconds` (the lower of the two non-null values,
or the non-null side) and the same `max_streak_days` (the larger value,
treating an absent side as 0) in either argument order — covering all four
presence combinations. -/
theorem mergeStats_commutative_outcome (a b : Option Stats) :
    ((mergeStats a b).best_time_seconds = (mergeStats b a).best_time_seconds) ∧
    ((mergeStats a b).max_streak_days = (mergeStats b a).max_streak_days) ∧
    ((mergeStats a b).best_time_seconds =
       combineMin (a.bind (·.best_time_seconds)) (b.bind (·.best_time_seconds))) ∧
    ((mergeStats a b).max_streak_days =
       max ((a.map (·.max_streak_days)).getD 0)
         ((b.map (·.max_streak_days)).getD 0)) := by
  have hb : ∀ x y : Option Stats, (mergeStats x y).best_time_seconds =
      combineMin (x.bind (·.best_time_seconds)) (y.bind (·.best_time_seconds)) := by
    intro x y
    simp [mergeStats, jsMergeBest_fst]
  have hm : ∀ x y : Option Stats, (mergeStats x y).max_streak_days =
      max ((x.map (·.max_streak_days)).getD 0) ((y.map (·.max_streak_days)).getD 0) := by
    intro x y
    simp [mergeStats, jsMergeMax_fst]
  refine ⟨?_, ?_, hb a b, hm a b⟩
  · rw [hb a b, hb b a, combineMin_comm]
  · rw [hm a b, hm b a, max_comm]

end Gokuro
